import Mathlib

/-
Verification development for ScummVM's LibRetro shader pipeline
(backends/graphics/opengl/pipelines/libretro.h).

The repository snapshot carries only the class header: the data model
(Pass, Texture, the binding tag enums, the inline isInitialized and
isSupportedByContext) is embedded directly from that header.  The member
function bodies (open/close/loadTextures/loadPasses/setOutputSize/
drawTexture/renderPass/setupPassUniforms) are not in the tree, so they are
modelled from the specification; every such definition says so in its doc
comment.
-/

set_option maxHeartbeats 1000000

namespace LibRetro

/-- Capability flags of the active OpenGL context consulted by
LibRetroPipeline::isSupportedByContext (the global OpenGLContext object). -/
structure Context where
  shadersSupported : Bool
  multitextureSupported : Bool
  framebufferObjectSupported : Bool
deriving DecidableEq, Repr

/-- Embeds LibRetroPipeline::isSupportedByContext from the header:
shaders, multitexture and framebuffer-object support must all be present. -/
def isSupportedByContext (ctx : Context) : Bool :=
  ctx.shadersSupported && ctx.multitextureSupported && ctx.framebufferObjectSupported

/-- Embeds Pass::TexCoordAttribute::Type from the header. -/
inductive TexCoordKind
  | kTypeTexture
  | kTypePass
  | kTypePrev
deriving DecidableEq, Repr

/-- Embeds Pass::TextureSampler::Type from the header. -/
inductive TexSamplerKind
  | kTypeTexture
  | kTypePass
  | kTypePrev
deriving DecidableEq, Repr

/-- Embeds Pass::TexCoordAttribute: an attribute name bound to a tagged
(source kind, index) coordinate source. -/
structure TexCoordAttribute where
  name : String
  type : TexCoordKind
  index : Nat
deriving DecidableEq, Repr

/-- Embeds Pass::TextureSampler: a texture unit bound to a tagged
(source kind, index) texture source. -/
structure TextureSampler where
  unit : Nat
  type : TexSamplerKind
  index : Nat
deriving DecidableEq, Repr

/-- Modelled from the spec: the scale rule of a ShaderPass descriptor
(absolute pixel size, multiplier of input size, or multiplier of viewport
size).  The descriptor type LibRetro::ShaderPass itself is not in the
snapshot. -/
inductive ScaleRule
  | absolute (w h : Nat)
  | inputScale (sx sy : Nat)
  | viewportScale (sx sy : Nat)
deriving DecidableEq, Repr

/-- Modelled from the spec: the external, immutable ShaderPass descriptor
(LibRetro::ShaderPass is not in the snapshot).  Shader compilation success
and the presence of the frame-count uniform in the compiled shader are
recorded as fields, since compilation itself is an external collaborator. -/
structure ShaderPassDesc where
  compiles : Bool
  declaresFrameCount : Bool
  frameCountMod : Option Nat
  aliasName : Option String
  scale : ScaleRule
  samplerNames : List String
deriving DecidableEq, Repr

/-- Default ShaderPass descriptor, used as a List.getD fallback. -/
def defaultDesc : ShaderPassDesc :=
  { compiles := false, declaresFrameCount := false, frameCountMod := none,
    aliasName := none, scale := ScaleRule.absolute 0 0, samplerNames := [] }

/-- Modelled from the spec: a lookup-texture descriptor (identifier,
source image path, and whether the file is present and decodable). -/
structure LookupTextureDesc where
  id : String
  path : String
  loadable : Bool
deriving DecidableEq, Repr

/-- Modelled from the spec: the preset model (ordered pass descriptors plus
named lookup-texture descriptors).  LibRetro::ShaderPreset is not in the
snapshot. -/
structure ShaderPreset where
  passes : List ShaderPassDesc
  textures : List LookupTextureDesc
deriving DecidableEq, Repr

/-- Embeds LibRetroPipeline::Texture from the header: identifier, decoded
pixel data pointer and GPU texture pointer (pointers as Option Nat). -/
structure Texture where
  id : String
  textureData : Option Nat
  glTexture : Option Nat
deriving DecidableEq, Repr

/-- Embeds the default constructor Texture() from the header, which
null-initialises textureData and glTexture. -/
def defaultTexture : Texture :=
  { id := "", textureData := none, glTexture := none }

/-- Embeds LibRetroPipeline::Pass from the header.  The shaderPass pointer
is an optional descriptor, shader and target pointers are Option Nat
handles.  The GLfloat vertexCoord array is omitted: no verified property
refers to its floating-point contents. -/
structure Pass where
  shaderPass : Option ShaderPassDesc
  shader : Option Nat
  target : Option Nat
  texCoords : List TexCoordAttribute
  texSamplers : List TextureSampler
  inputTexture : Option Nat
  hasFrameCount : Bool
deriving DecidableEq, Repr

/-- Embeds the default constructor Pass() from the header: all pointers
null, empty binding arrays, hasFrameCount false. -/
def defaultPass : Pass :=
  { shaderPass := none, shader := none, target := none, texCoords := [],
    texSamplers := [], inputTexture := none, hasFrameCount := false }

/-- GPU resource bookkeeping for the modelled lifecycle: a fresh-handle
counter, the multiset of live pipeline-allocated handles, and a monotone
allocation counter (the observable of spec section 8). -/
structure GPU where
  nextHandle : Nat
  live : Multiset Nat
  allocCount : Nat
deriving DecidableEq

/-- Allocate a fresh GPU resource handle. -/
def GPU.alloc (g : GPU) : Nat × GPU :=
  (g.nextHandle,
   { nextHandle := g.nextHandle + 1, live := g.nextHandle ::ₘ g.live,
     allocCount := g.allocCount + 1 })

/-- Release one GPU resource handle. -/
def GPU.free (g : GPU) (h : Nat) : GPU :=
  { g with live := g.live.erase h }

/-- Release a list of GPU resource handles in order. -/
def releaseHandles (g : GPU) (hs : List Nat) : GPU :=
  hs.foldl GPU.free g

/-- GPU texture handles owned by a loaded texture array. -/
def texturesHandles : List Texture → List Nat
  | [] => []
  | t :: ts => t.glTexture.toList ++ texturesHandles ts

/-- GPU handles owned by one pass: its compiled shader and its render
target, when present. -/
def passHandles (p : Pass) : List Nat :=
  p.shader.toList ++ p.target.toList

/-- GPU handles owned by a pass array. -/
def passesHandles : List Pass → List Nat
  | [] => []
  | p :: ps => passHandles p ++ passesHandles ps

/-- Modelled from the spec: a resolved symbolic binding source, the closed
three-way tagged variant of spec section 3 (lookup texture, earlier pass
output, or previous-frame output). -/
inductive SrcRef
  | lookupTex (i : Nat)
  | passOut (i : Nat)
  | prevFrame (i : Nat)
deriving DecidableEq, Repr

/-- Translate a resolved source into the sampler-binding enum of the header. -/
def SrcRef.toSamplerKind : SrcRef → TexSamplerKind × Nat
  | .lookupTex i => (TexSamplerKind.kTypeTexture, i)
  | .passOut i => (TexSamplerKind.kTypePass, i)
  | .prevFrame i => (TexSamplerKind.kTypePrev, i)

/-- Translate a resolved source into the coordinate-binding enum of the header. -/
def SrcRef.toCoordKind : SrcRef → TexCoordKind × Nat
  | .lookupTex i => (TexCoordKind.kTypeTexture, i)
  | .passOut i => (TexCoordKind.kTypePass, i)
  | .prevFrame i => (TexCoordKind.kTypePrev, i)

/-- First alias entry whose registered name equals the symbolic name. -/
def lookupAliasEnv : List (String × SrcRef) → String → Option SrcRef
  | [], _ => none
  | (n, r) :: rest, name => if n = name then some r else lookupAliasEnv rest name

/-- Strip a matching leading character sequence, returning the remainder. -/
def charsAfter : List Char → List Char → Option (List Char)
  | [], rest => some rest
  | _ :: _, [] => none
  | p :: ps, c :: cs => if c = p then charsAfter ps cs else none

/-- Numeric value of a decimal digit character. -/
def digitVal (c : Char) : Option Nat :=
  if c.isDigit then some (c.toNat - 48) else none

/-- Accumulate decimal digits into a number; fails on a non-digit. -/
def digitsToNatAux (acc : Nat) : List Char → Option Nat
  | [] => some acc
  | c :: cs =>
    match digitVal c with
    | some d => digitsToNatAux (acc * 10 + d) cs
    | none => none

/-- Parse a non-empty all-digit character list as a decimal number. -/
def digitsToNat : List Char → Option Nat
  | [] => none
  | cs => digitsToNatAux 0 cs

/-- Parse a positional symbolic name of shape pre followed by a decimal
index, e.g. a "pass N" or "texture N" reference. -/
def parseIndexed (pre name : String) : Option Nat :=
  match charsAfter pre.data name.data with
  | some rest => digitsToNat rest
  | none => none

/-- Modelled from the spec: resolution of one symbolic name during the Pass
Graph Builder's binding step.  The name is matched, in order, against
(a) an alias registered by an earlier pass or a lookup texture,
(b) a positional "pass N" (N below the current pass id) or "texture N"
reference, (c) a "prev N" previous-frame reference; an unmatched name is
left unbound. -/
def resolveName (env : List (String × SrcRef)) (passId nTextures : Nat)
    (name : String) : Option SrcRef :=
  match lookupAliasEnv env name with
  | some r => some r
  | none =>
    match parseIndexed "pass" name with
    | some n => if n < passId then some (SrcRef.passOut n) else none
    | none =>
      match parseIndexed "texture" name with
      | some n => if n < nTextures then some (SrcRef.lookupTex n) else none
      | none =>
        match parseIndexed "prev" name with
        | some n => some (SrcRef.prevFrame n)
        | none => none

/-- Modelled from the spec: Pass::buildTexSamplers.  Each resolvable
symbolic name receives the next texture unit; unresolved names are simply
not bound. -/
def buildTexSamplers (passId nTextures : Nat) (env : List (String × SrcRef)) :
    List String → Nat → List TextureSampler
  | [], _ => []
  | n :: ns, unit =>
    match resolveName env passId nTextures n with
    | some r =>
      { unit := unit, type := r.toSamplerKind.1, index := r.toSamplerKind.2 } ::
        buildTexSamplers passId nTextures env ns (unit + 1)
    | none => buildTexSamplers passId nTextures env ns unit

/-- Modelled from the spec: Pass::buildTexCoords, resolving the same
symbolic names into coordinate-attribute bindings. -/
def buildTexCoords (passId nTextures : Nat) (env : List (String × SrcRef))
    (names : List String) : List TexCoordAttribute :=
  names.filterMap fun n =>
    (resolveName env passId nTextures n).map fun r =>
      { name := n, type := r.toCoordKind.1, index := r.toCoordKind.2 }

/-- Alias environment contributed by the lookup textures, each id naming
its positional texture index. -/
def texAliasEnvAux (i : Nat) : List LookupTextureDesc → List (String × SrcRef)
  | [] => []
  | d :: ds => (d.id, SrcRef.lookupTex i) :: texAliasEnvAux (i + 1) ds

/-- Alias environment of a preset's lookup textures. -/
def texAliasEnv (ts : List LookupTextureDesc) : List (String × SrcRef) :=
  texAliasEnvAux 0 ts

/-- Modelled from the spec: render-target size from a pass's scale rule,
against the input size for input-relative rules and the viewport size for
viewport-relative rules. -/
def targetSize : ScaleRule → Nat → Nat → Nat → Nat → Nat × Nat
  | ScaleRule.absolute w h, _, _, _, _ => (w, h)
  | ScaleRule.inputScale sx sy, iw, ih, _, _ => (sx * iw, sy * ih)
  | ScaleRule.viewportScale sx sy, _, _, ow, oh => (sx * ow, sy * oh)

/-- Modelled from the spec: building one Pass during loadPasses.  The
shader is compiled first (compile failure aborts with nothing retained for
this pass); a render target is allocated unless this is the terminal pass,
and a zero-area target is treated as a build failure, releasing the
freshly compiled shader. -/
def buildPass (g : GPU) (iw ih ow oh : Nat) (env : List (String × SrcRef))
    (i nTex : Nat) (d : ShaderPassDesc) (isLast : Bool) : Option Pass × GPU :=
  if d.compiles then
    match GPU.alloc g with
    | (sh, g1) =>
      if isLast then
        (some { shaderPass := some d, shader := some sh, target := none,
                texCoords := buildTexCoords i nTex env d.samplerNames,
                texSamplers := buildTexSamplers i nTex env d.samplerNames 1,
                inputTexture := none, hasFrameCount := d.declaresFrameCount },
         g1)
      else
        match targetSize d.scale iw ih ow oh with
        | (w, h) =>
          if w = 0 || h = 0 then (none, g1.free sh)
          else
            match GPU.alloc g1 with
            | (tg, g2) =>
              (some { shaderPass := some d, shader := some sh, target := some tg,
                      texCoords := buildTexCoords i nTex env d.samplerNames,
                      texSamplers := buildTexSamplers i nTex env d.samplerNames 1,
                      inputTexture := none, hasFrameCount := d.declaresFrameCount },
               g2)
  else (none, g)

/-- Modelled from the spec: LibRetroPipeline::loadTextures.  Each loadable
descriptor yields an immutable GPU texture; a missing or undecodable file
stops the walk with failure, returning the textures loaded so far so the
caller can release them. -/
def loadTexturesAux (g : GPU) : List LookupTextureDesc → Bool × List Texture × GPU
  | [] => (true, [], g)
  | d :: ds =>
    if d.loadable then
      match GPU.alloc g with
      | (h, g1) =>
        match loadTexturesAux g1 ds with
        | (ok, ts, g2) =>
          (ok, { id := d.id, textureData := some h, glTexture := some h } :: ts, g2)
    else (false, [], g)

/-- Modelled from the spec: LibRetroPipeline::loadPasses.  Passes are built
in order; a pass registering an alias makes it visible to later passes; a
build failure stops the walk, returning the passes built so far so the
caller can release them. -/
def loadPassesAux (iw ih ow oh nTex : Nat) (g : GPU)
    (env : List (String × SrcRef)) (i : Nat) :
    List ShaderPassDesc → Bool × List Pass × GPU
  | [] => (true, [], g)
  | d :: ds =>
    match buildPass g iw ih ow oh env i nTex d ds.isEmpty with
    | (none, g1) => (false, [], g1)
    | (some p, g1) =>
      match loadPassesAux iw ih ow oh nTex g1
          (match d.aliasName with
           | some a => env ++ [(a, SrcRef.passOut i)]
           | none => env) (i + 1) ds with
      | (ok, ps, g2) => (ok, p :: ps, g2)

/-- Abstract texture contents flowing through the frame renderer: a lookup
texture, the output a given pass produced in a given render call, or the
defined placeholder returned before enough history exists. -/
inductive Val
  | tex (i : Nat)
  | out (frame passIdx : Nat)
  | ph
deriving DecidableEq, Repr

/-- Modelled from the spec: the History Tracker's bounded ring for one
pass.  Index 0 is the most recent prior frame; the oldest entry is evicted
when a push exceeds the capacity. -/
structure HistoryRing where
  cap : Nat
  entries : List Val
deriving DecidableEq, Repr

/-- Modelled from the spec: push(passId, texture) stores the most recent
output, evicting past capacity. -/
def HistoryRing.push (r : HistoryRing) (v : Val) : HistoryRing :=
  { r with entries := (v :: r.entries).take r.cap }

/-- Modelled from the spec: get(passId, lag) returns the texture rendered
lag+1 renders ago, or the defined placeholder before enough history
exists. -/
def HistoryRing.get (r : HistoryRing) (lag : Nat) : Val :=
  r.entries.getD lag Val.ph

/-- A ring with the given capacity and no history yet. -/
def emptyRing (cap : Nat) : HistoryRing :=
  { cap := cap, entries := [] }

/-- Largest lag+1 over the Prev references among a pass's samplers: the
ring capacity demanded by spec section 4.3. -/
def capOfSamplers : List TextureSampler → Nat
  | [] => 0
  | s :: rest =>
    match s.type with
    | TexSamplerKind.kTypePrev => max (s.index + 1) (capOfSamplers rest)
    | _ => capOfSamplers rest

/-- Ring capacity required by one pass's own Prev references. -/
def capOf (p : Pass) : Nat := capOfSamplers p.texSamplers

/-- One empty history ring per pass, sized by that pass's Prev references. -/
def initRings (ps : List Pass) : List HistoryRing :=
  ps.map fun p => emptyRing (capOf p)

/-- The ring contents a pass's history ring reaches after the first n
render calls, each call pushing that call's output. -/
def ringAfter (outF : Nat → Val) (cap : Nat) : Nat → HistoryRing
  | 0 => emptyRing cap
  | Nat.succ n => (ringAfter outF cap n).push (outF n)

/-- Modelled from the spec: the frame-count value a pass's shader receives,
reduced modulo the declared modulus when one is declared. -/
def frameCountValue (d : ShaderPassDesc) (f : Nat) : Nat :=
  match d.frameCountMod with
  | some m => f % m
  | none => f

/-- Frame-count value through the pass's descriptor pointer. -/
def reduceFrameCount (p : Pass) (f : Nat) : Nat :=
  match p.shaderPass with
  | some d => frameCountValue d f
  | none => f

/-- Modelled from the spec: the frame-count part of
LibRetroPipeline::setupPassUniforms.  Returns the uniform value supplied
(none when not supplied) and the number of uniform lookups performed: the
lookup is skipped entirely when the cached hasFrameCount flag is false. -/
def setupPassUniforms (p : Pass) (f : Nat) : Option Nat × Nat :=
  if p.hasFrameCount then (some (reduceFrameCount p f), 1) else (none, 0)

/-- Modelled from the spec: the concrete texture a sampler binding reads
while pass i renders: a lookup texture, the output some earlier pass
produced this frame, or this pass's own history through its ring. -/
def resolveVal (i : Nat) (outs : List Val) (rings : List HistoryRing)
    (s : TextureSampler) : Val :=
  match s.type with
  | TexSamplerKind.kTypeTexture => Val.tex s.index
  | TexSamplerKind.kTypePass => outs.getD s.index Val.ph
  | TexSamplerKind.kTypePrev => (rings.getD i (emptyRing 0)).get s.index

/-- Observable record of one pass's execution within one render call. -/
structure DrawEvent where
  passIndex : Nat
  reads : List (TextureSampler × Val)
  frameCountUniform : Option Nat
  uniformLookups : Nat
  output : Val
deriving DecidableEq, Repr

/-- Default draw event, used as a List.getD fallback. -/
def defaultEvent : DrawEvent :=
  { passIndex := 0, reads := [], frameCountUniform := none,
    uniformLookups := 0, output := Val.ph }

/-- Modelled from the spec: LibRetroPipeline::renderPass for pass i in
render call f: bind the resolved sampler sources, supply the frame-count
uniform per the cached flag, and draw into the pass's target. -/
def mkEvent (f i : Nat) (p : Pass) (outs : List Val)
    (rings : List HistoryRing) : DrawEvent :=
  { passIndex := i,
    reads := p.texSamplers.map fun s => (s, resolveVal i outs rings s),
    frameCountUniform := (setupPassUniforms p f).1,
    uniformLookups := (setupPassUniforms p f).2,
    output := Val.out f i }

/-- Replace the i-th ring by its pushed successor. -/
def setRing : List HistoryRing → Nat → Val → List HistoryRing
  | [], _, _ => []
  | r :: rs, 0, v => r.push v :: rs
  | r :: rs, Nat.succ n, v => r :: setRing rs n v

/-- Modelled from the spec: the Frame Renderer's walk over the pass list in
ascending index order.  Each pass resolves its inputs against the outputs
already produced this frame and its own history, draws, and only then
pushes its fresh output into its ring. -/
def runPasses (f : Nat) (outs : List Val) (rings : List HistoryRing)
    (i : Nat) : List Pass → List DrawEvent × List HistoryRing
  | [] => ([], rings)
  | p :: ps =>
    match runPasses f (outs ++ [Val.out f i]) (setRing rings i (Val.out f i))
        (i + 1) ps with
    | (evs, ringsF) => (mkEvent f i p outs rings :: evs, ringsF)

/-- One whole render call: all passes, in order, exactly once. -/
def renderFrame (f : Nat) (passes : List Pass) (rings : List HistoryRing) :
    List DrawEvent × List HistoryRing :=
  runPasses f [] rings 0 passes

/-- The first n render calls against a freshly opened pass list: per-call
event traces and the final history rings. -/
def renderCalls (passes : List Pass) : Nat → List (List DrawEvent) × List HistoryRing
  | 0 => ([], initRings passes)
  | Nat.succ n =>
    match renderCalls passes n with
    | (trs, rings) =>
      match renderFrame n passes rings with
      | (evs, rings') => (trs ++ [evs], rings')

/-- The pipeline-owned state of the header's private members: the preset
pointer, the Texture and Pass arrays, the history rings, the tracked
geometry, the deferred-reallocation flag and the frame counter. -/
structure PipelineState where
  shaderPreset : Option ShaderPreset
  textures : List Texture
  passes : List Pass
  rings : List HistoryRing
  inputWidth : Nat
  inputHeight : Nat
  outputWidth : Nat
  outputHeight : Nat
  outputSizeChanged : Bool
  frameCount : Nat
deriving DecidableEq

/-- Embeds LibRetroPipeline::isInitialized from the header: the stored
preset pointer is non-null. -/
def isInitialized (s : PipelineState) : Bool :=
  s.shaderPreset.isSome

/-- All GPU handles owned by the pipeline state. -/
def ownedHandles (s : PipelineState) : List Nat :=
  texturesHandles s.textures ++ passesHandles s.passes

/-- Modelled from the spec: LibRetroPipeline::close.  Releases every render
target and texture owned by the pipeline and clears the Pass/Texture
arrays; a no-op resource-wise when already closed. -/
def closePipeline (s : PipelineState) (g : GPU) : PipelineState × GPU :=
  ({ s with shaderPreset := none, textures := [], passes := [], rings := [] },
   releaseHandles g (ownedHandles s))

/-- Successful open: install the freshly built arrays and remember the
preset. -/
def installState (s0 : PipelineState) (pr : ShaderPreset) (ts : List Texture)
    (ps : List Pass) (iw ih : Nat) : PipelineState :=
  { s0 with shaderPreset := some pr, textures := ts, passes := ps,
            rings := initRings ps, inputWidth := iw, inputHeight := ih }

/-- Modelled from the spec: LibRetroPipeline::open.  An implicit close
first tears down any previous preset; the capability gate refuses before
any allocation; loadTextures and loadPasses each roll back everything
allocated in this attempt on failure, so a failed open leaves no partial
pipeline installed. -/
def openPipeline (ctx : Context) (pr : ShaderPreset) (iw ih : Nat)
    (s : PipelineState) (g : GPU) : Bool × PipelineState × GPU :=
  if isSupportedByContext ctx then
    match loadTexturesAux (closePipeline s g).2 pr.textures with
    | (false, ts, g1) =>
      (false, (closePipeline s g).1, releaseHandles g1 (texturesHandles ts))
    | (true, ts, g1) =>
      match loadPassesAux iw ih s.outputWidth s.outputHeight
          pr.textures.length g1 (texAliasEnv pr.textures) 0 pr.passes with
      | (false, ps, g2) =>
        (false, (closePipeline s g).1,
         releaseHandles (releaseHandles g2 (passesHandles ps))
           (texturesHandles ts))
      | (true, ps, g2) =>
        (true, installState (closePipeline s g).1 pr ts ps iw ih, g2)
  else (false, (closePipeline s g).1, (closePipeline s g).2)

/-- Modelled from the spec: LibRetroPipeline::setOutputSize.  A call with
the currently observed size is a no-op; otherwise the new size is recorded
and the geometry-changed flag marked, deferring any reallocation. -/
def setOutputSize (s : PipelineState) (w h : Nat) : PipelineState :=
  if w = s.outputWidth && h = s.outputHeight then s
  else { s with outputWidth := w, outputHeight := h, outputSizeChanged := true }

/-- Modelled from the spec: the deferred render-target reallocation that
runs just before the next render after a geometry change: every existing
render target is released and re-created; passes without a target (the
terminal pass) keep none. -/
def reallocTargetsAux (g : GPU) : List Pass → List Pass × GPU
  | [] => ([], g)
  | p :: ps =>
    match p.target with
    | none =>
      match reallocTargetsAux g ps with
      | (ps', g') => (p :: ps', g')
    | some h =>
      match GPU.alloc (g.free h) with
      | (h', g1) =>
        match reallocTargetsAux g1 ps with
        | (ps', g') => ({ p with target := some h' } :: ps', g')

/-- Modelled from the spec: LibRetroPipeline::drawTexture, the per-frame
render entry point.  When a preset is loaded it performs the deferred
target reallocation if the geometry changed, renders every pass once in
order, updates the history rings and advances the frame counter; when no
preset is loaded it does nothing to the pipeline's own state. -/
def drawTexture (s : PipelineState) (g : GPU) : PipelineState × GPU :=
  if s.shaderPreset.isSome then
    match (if s.outputSizeChanged then reallocTargetsAux g s.passes
           else (s.passes, g)) with
    | (ps, g') =>
      match renderFrame s.frameCount ps s.rings with
      | (_, rings') =>
        ({ s with passes := ps, rings := rings', outputSizeChanged := false,
                  frameCount := s.frameCount + 1 }, g')
  else (s, g)

/-- The pipeline's external interface as an operation alphabet. -/
inductive PipelineOp
  | openOp (ctx : Context) (pr : ShaderPreset) (iw ih : Nat)
  | closeOp
  | setSizeOp (w h : Nat)
  | drawOp
deriving DecidableEq

/-- Ops that may occur between an open and its matching close. -/
def PipelineOp.isFrameOp : PipelineOp → Bool
  | PipelineOp.setSizeOp _ _ => true
  | PipelineOp.drawOp => true
  | _ => false

/-- One step of the pipeline lifecycle. -/
def applyOp : PipelineState × GPU → PipelineOp → PipelineState × GPU
  | (s, g), PipelineOp.openOp ctx pr iw ih =>
    match openPipeline ctx pr iw ih s g with
    | (_, s', g') => (s', g')
  | (s, g), PipelineOp.closeOp => closePipeline s g
  | (s, g), PipelineOp.setSizeOp w h => (setOutputSize s w h, g)
  | (s, g), PipelineOp.drawOp => drawTexture s g

/-- A whole call sequence against the pipeline. -/
def applyOps (sg : PipelineState × GPU) (ops : List PipelineOp) :
    PipelineState × GPU :=
  ops.foldl applyOp sg

/-- The pipeline as constructed: nothing loaded, nothing owned. -/
def initialState : PipelineState :=
  { shaderPreset := none, textures := [], passes := [], rings := [],
    inputWidth := 0, inputHeight := 0, outputWidth := 0, outputHeight := 0,
    outputSizeChanged := false, frameCount := 0 }

/-- A GPU with no pipeline-owned resources. -/
def initialGPU : GPU :=
  { nextHandle := 0, live := 0, allocCount := 0 }

/-- The built-pipeline shape demanded by the spec for a preset with P
passes: exactly P Pass records, bound to the preset's descriptors in
original order, and a render target on every pass except exactly the
last. -/
def passStructure (pr : ShaderPreset) (s : PipelineState) : Prop :=
  s.passes.length = pr.passes.length ∧
  ∀ i, i < s.passes.length →
    (s.passes.getD i defaultPass).shaderPass = some (pr.passes.getD i defaultDesc) ∧
    ((s.passes.getD i defaultPass).target = none ↔ i = s.passes.length - 1)

/-- A context with every required capability. -/
def goodCtx : Context :=
  { shadersSupported := true, multitextureSupported := true,
    framebufferObjectSupported := true }

/-- A context lacking multitexture support. -/
def badCtx : Context :=
  { shadersSupported := true, multitextureSupported := false,
    framebufferObjectSupported := true }

/-- A two-pass demonstration preset: pass 0 samples its own previous-frame
output, pass 1 (terminal) samples the lookup texture by alias, pass 0
positionally, and the lookup texture positionally. -/
def demoPreset : ShaderPreset :=
  { passes :=
      [ { compiles := true, declaresFrameCount := true, frameCountMod := some 2,
          aliasName := some "blur", scale := ScaleRule.inputScale 2 2,
          samplerNames := ["prev0"] },
        { compiles := true, declaresFrameCount := false, frameCountMod := none,
          aliasName := none, scale := ScaleRule.viewportScale 1 1,
          samplerNames := ["LUT", "pass0", "texture0"] } ],
    textures := [ { id := "LUT", path := "lut.png", loadable := true } ] }

/-- A minimal valid preset: one terminal pass, no samplers, no textures. -/
def tinyPreset : ShaderPreset :=
  { passes :=
      [ { compiles := true, declaresFrameCount := false, frameCountMod := none,
          aliasName := none, scale := ScaleRule.viewportScale 1 1,
          samplerNames := [] } ],
    textures := [] }

/-- A preset whose only pass fails to compile. -/
def badPreset : ShaderPreset :=
  { passes :=
      [ { compiles := false, declaresFrameCount := false, frameCountMod := none,
          aliasName := none, scale := ScaleRule.viewportScale 1 1,
          samplerNames := [] } ],
    textures := [] }

/-- The demonstration preset opened from the initial pipeline. -/
def openedRun : Bool × PipelineState × GPU :=
  openPipeline goodCtx demoPreset 64 48 initialState initialGPU

/-- Pipeline state after successfully opening the demonstration preset. -/
def openedS : PipelineState := openedRun.2.1

/-- GPU state after successfully opening the demonstration preset. -/
def openedG : GPU := openedRun.2.2

/-- A reopen attempt on the broken preset from the opened pipeline. -/
def reopenRun : Bool × PipelineState × GPU :=
  openPipeline goodCtx badPreset 64 48 openedS openedG

/-- Pipeline state after the failed reopen. -/
def reopenS : PipelineState := reopenRun.2.1

/-- GPU state after the failed reopen. -/
def reopenG : GPU := reopenRun.2.2

theorem getD_take {α : Type} (l : List α) (c k : Nat) (d : α) :
    (l.take c).getD k d = if k < c then l.getD k d else d := by
  induction l generalizing c k with
  | nil =>
    cases c <;> cases k <;> simp
  | cons x xs ih =>
    cases c with
    | zero => simp
    | succ c' =>
      cases k with
      | zero => simp
      | succ k' =>
        simp only [List.take_succ_cons, List.getD_cons_succ, ih,
          Nat.add_lt_add_iff_right]

theorem getD_map_range {α : Type} (g : Nat → α) (i k : Nat) (d : α)
    (h : k < i) : ((List.range i).map g).getD k d = g k := by
  rw [List.getD_eq_getElem _ _ (by simpa using h)]
  simp

theorem releaseHandles_nil (g : GPU) : releaseHandles g [] = g := rfl

theorem releaseHandles_cons (g : GPU) (x : Nat) (xs : List Nat) :
    releaseHandles g (x :: xs) = releaseHandles (g.free x) xs := rfl

theorem releaseHandles_live (hs : List Nat) (g : GPU) (m : Multiset Nat)
    (h : g.live = ↑hs + m) : (releaseHandles g hs).live = m := by
  induction hs generalizing g m with
  | nil => simpa using h
  | cons x xs ih =>
    rw [releaseHandles_cons]
    refine ih (g.free x) m ?_
    rw [GPU.free, h, ← Multiset.cons_coe, Multiset.cons_add,
      Multiset.erase_cons_head]

theorem releaseHandles_allocCount (hs : List Nat) (g : GPU) :
    (releaseHandles g hs).allocCount = g.allocCount := by
  induction hs generalizing g with
  | nil => rfl
  | cons x xs ih => rw [releaseHandles_cons, ih]; rfl

theorem loadTexturesAux_cons (g : GPU) (d : LookupTextureDesc)
    (ds : List LookupTextureDesc) :
    loadTexturesAux g (d :: ds) =
      if d.loadable then
        match loadTexturesAux (GPU.alloc g).2 ds with
        | (ok, ts, g2) =>
          (ok, { id := d.id, textureData := some (GPU.alloc g).1,
                 glTexture := some (GPU.alloc g).1 } :: ts, g2)
      else (false, [], g) := rfl

theorem loadTexturesAux_live (ds : List LookupTextureDesc) (g : GPU) :
    ((loadTexturesAux g ds).2.2).live =
      ↑(texturesHandles (loadTexturesAux g ds).2.1) + g.live := by
  induction ds generalizing g with
  | nil => simp [loadTexturesAux, texturesHandles]
  | cons d ds ih =>
    rw [loadTexturesAux_cons]
    by_cases hl : d.loadable
    · simp only [hl, if_true]
      rcases hrec : loadTexturesAux (GPU.alloc g).2 ds with ⟨ok, ts, g2⟩
      have hrl := ih (GPU.alloc g).2
      rw [hrec] at hrl
      simp only [GPU.alloc] at hrl
      simp only [texturesHandles, GPU.alloc, Option.toList_some,
        List.cons_append, List.nil_append, ← Multiset.cons_coe]
      rw [hrl, Multiset.add_cons, Multiset.cons_add]
    · simp [hl, texturesHandles]

theorem buildPass_live (g : GPU) (iw ih ow oh : Nat)
    (env : List (String × SrcRef)) (i nTex : Nat) (d : ShaderPassDesc)
    (isLast : Bool) :
    ((buildPass g iw ih ow oh env i nTex d isLast).2).live =
      (match (buildPass g iw ih ow oh env i nTex d isLast).1 with
       | some p => ↑(passHandles p)
       | none => 0) + g.live := by
  by_cases hc : d.compiles
  · cases isLast with
    | true =>
      simp [buildPass, hc, GPU.alloc, passHandles, ← Multiset.cons_coe]
    | false =>
      rcases hts : targetSize d.scale iw ih ow oh with ⟨w, h⟩
      by_cases hz : w = 0 || h = 0
      · simp [buildPass, hc, hts, hz, GPU.alloc, GPU.free,
          Multiset.erase_cons_head]
      · simp only [buildPass, hc, if_true, hts, hz, Bool.false_eq_true,
          if_false, GPU.alloc]
        simp [passHandles, ← Multiset.cons_coe, Multiset.cons_add,
          Multiset.cons_swap]
  · simp [buildPass, hc]

theorem loadPassesAux_cons (iw ih ow oh nTex : Nat) (g : GPU)
    (env : List (String × SrcRef)) (i : Nat) (d : ShaderPassDesc)
    (ds : List ShaderPassDesc) :
    loadPassesAux iw ih ow oh nTex g env i (d :: ds) =
      match buildPass g iw ih ow oh env i nTex d ds.isEmpty with
      | (none, g1) => (false, [], g1)
      | (some p, g1) =>
        match loadPassesAux iw ih ow oh nTex g1
            (match d.aliasName with
             | some a => env ++ [(a, SrcRef.passOut i)]
             | none => env) (i + 1) ds with
        | (ok, ps, g2) => (ok, p :: ps, g2) := rfl

theorem loadPassesAux_live (ds : List ShaderPassDesc) (iw ih ow oh nTex : Nat)
    (g : GPU) (env : List (String × SrcRef)) (i : Nat) :
    ((loadPassesAux iw ih ow oh nTex g env i ds).2.2).live =
      ↑(passesHandles (loadPassesAux iw ih ow oh nTex g env i ds).2.1) + g.live := by
  induction ds generalizing g env i with
  | nil => simp [loadPassesAux, passesHandles]
  | cons d ds ih2 =>
    rw [loadPassesAux_cons]
    have hb := buildPass_live g iw ih ow oh env i nTex d ds.isEmpty
    rcases hbp : buildPass g iw ih ow oh env i nTex d ds.isEmpty with ⟨op, g1⟩
    rw [hbp] at hb
    cases op with
    | none =>
      simpa [passesHandles] using hb
    | some p =>
      rcases hrec : loadPassesAux iw ih ow oh nTex g1
          (match d.aliasName with
           | some a => env ++ [(a, SrcRef.passOut i)]
           | none => env) (i + 1) ds with ⟨ok, ps, g2⟩
      have hrl := ih2 g1 (match d.aliasName with
          | some a => env ++ [(a, SrcRef.passOut i)]
          | none => env) (i + 1)
      rw [hrec] at hrl
      simp only at hrl
      simp only [passesHandles]
      simp only at hb
      rw [hrec]
      simp only
      rw [hrl, hb, ← Multiset.coe_add]
      abel

theorem closePipeline_fst (s : PipelineState) (g : GPU) :
    (closePipeline s g).1 =
      { s with shaderPreset := none, textures := [], passes := [], rings := [] } :=
  rfl

theorem closePipeline_live (s : PipelineState) (g : GPU)
    (hwf : g.live = ↑(ownedHandles s)) : ((closePipeline s g).2).live = 0 := by
  refine releaseHandles_live (ownedHandles s) g 0 ?_
  rw [hwf, add_zero]

theorem closePipeline_allocCount (s : PipelineState) (g : GPU) :
    ((closePipeline s g).2).allocCount = g.allocCount :=
  releaseHandles_allocCount _ _

theorem open_fail_state (ctx : Context) (pr : ShaderPreset) (iw ih : Nat)
    (s s' : PipelineState) (g g' : GPU)
    (h : openPipeline ctx pr iw ih s g = (false, s', g')) :
    s' = (closePipeline s g).1 := by
  simp only [openPipeline] at h
  split at h
  · split at h
    · simp only [Prod.mk.injEq] at h
      exact h.2.1.symm
    · split at h
      · simp only [Prod.mk.injEq] at h
        exact h.2.1.symm
      · simp only [Prod.mk.injEq] at h
        exact absurd h.1 (by simp)
  · simp only [Prod.mk.injEq] at h
    exact h.2.1.symm

theorem open_fail_live (ctx : Context) (pr : ShaderPreset) (iw ih : Nat)
    (s s' : PipelineState) (g g' : GPU)
    (hwf : g.live = ↑(ownedHandles s))
    (h : openPipeline ctx pr iw ih s g = (false, s', g')) : g'.live = 0 := by
  have hc : ((closePipeline s g).2).live = 0 := closePipeline_live s g hwf
  simp only [openPipeline] at h
  split at h
  · rename_i hsup
    split at h
    · rename_i ts g1 htex
      have h1 := loadTexturesAux_live pr.textures (closePipeline s g).2
      rw [htex, hc] at h1
      simp only at h1
      simp only [Prod.mk.injEq] at h
      rw [← h.2.2]
      refine releaseHandles_live _ _ 0 ?_
      rw [h1, add_zero]
    · rename_i ts g1 htex
      split at h
      · rename_i ps g2 hpass
        have h1 := loadTexturesAux_live pr.textures (closePipeline s g).2
        rw [htex, hc] at h1
        simp only at h1
        have h2 := loadPassesAux_live pr.passes iw ih s.outputWidth
          s.outputHeight pr.textures.length g1 (texAliasEnv pr.textures) 0
        rw [hpass] at h2
        simp only at h2
        simp only [Prod.mk.injEq] at h
        rw [← h.2.2]
        refine releaseHandles_live _ _ 0 ?_
        rw [add_zero]
        refine releaseHandles_live _ _ _ ?_
        rw [h2, h1, add_zero]
      · simp only [Prod.mk.injEq] at h
        exact absurd h.1 (by simp)
  · simp only [Prod.mk.injEq] at h
    rw [← h.2.2]
    exact hc

theorem open_unsupported (ctx : Context) (pr : ShaderPreset) (iw ih : Nat)
    (s : PipelineState) (g : GPU) (hctx : isSupportedByContext ctx = false) :
    openPipeline ctx pr iw ih s g =
      (false, (closePipeline s g).1, (closePipeline s g).2) := by
  simp [openPipeline, hctx]

theorem open_success (ctx : Context) (pr : ShaderPreset) (iw ih : Nat)
    (s s' : PipelineState) (g g' : GPU)
    (h : openPipeline ctx pr iw ih s g = (true, s', g')) :
    s'.shaderPreset = some pr ∧ s'.rings = initRings s'.passes ∧
    ∃ ts g1, loadTexturesAux ((closePipeline s g).2) pr.textures = (true, ts, g1) ∧
      loadPassesAux iw ih s.outputWidth s.outputHeight pr.textures.length g1
        (texAliasEnv pr.textures) 0 pr.passes = (true, s'.passes, g') ∧
      s'.textures = ts := by
  simp only [openPipeline] at h
  split at h
  · split at h
    · simp only [Prod.mk.injEq] at h
      exact absurd h.1 (by simp)
    · rename_i ts g1 htex
      split at h
      · simp only [Prod.mk.injEq] at h
        exact absurd h.1 (by simp)
      · rename_i ps g2 hpass
        simp only [Prod.mk.injEq] at h
        obtain ⟨-, hs', hg'⟩ := h
        subst hs' hg'
        refine ⟨rfl, rfl, ts, g1, htex, ?_, rfl⟩
        simpa [installState] using hpass
  · simp only [Prod.mk.injEq] at h
    exact absurd h.1 (by simp)

theorem buildPass_some (g : GPU) (iw ih ow oh : Nat)
    (env : List (String × SrcRef)) (i nTex : Nat) (d : ShaderPassDesc)
    (isLast : Bool) (p : Pass) (g1 : GPU)
    (h : buildPass g iw ih ow oh env i nTex d isLast = (some p, g1)) :
    p.shaderPass = some d ∧ (p.target = none ↔ isLast = true) ∧
    p.hasFrameCount = d.declaresFrameCount ∧
    p.texSamplers = buildTexSamplers i nTex env d.samplerNames 1 := by
  simp only [buildPass] at h
  split at h
  · cases isLast with
    | true =>
      simp only [if_true, GPU.alloc, Prod.mk.injEq, Option.some.injEq] at h
      rw [← h.1]
      simp
    | false =>
      simp only [Bool.false_eq_true, if_false, GPU.alloc] at h
      split at h
      · simp only [Prod.mk.injEq] at h
        exact absurd h.1 (by simp)
      · simp only [Prod.mk.injEq, Option.some.injEq] at h
        rw [← h.1]
        simp
  · simp only [Prod.mk.injEq] at h
    exact absurd h.1 (by simp)

theorem loadPassesAux_structure (ds : List ShaderPassDesc)
    (iw ih ow oh nTex : Nat) (g : GPU) (env : List (String × SrcRef)) (i : Nat)
    (ps : List Pass) (g' : GPU)
    (h : loadPassesAux iw ih ow oh nTex g env i ds = (true, ps, g')) :
    ps.length = ds.length ∧
    ∀ t, t < ds.length →
      (ps.getD t defaultPass).shaderPass = some (ds.getD t defaultDesc) ∧
      ((ps.getD t defaultPass).target = none ↔ t = ds.length - 1) := by
  induction ds generalizing g env i ps g' with
  | nil =>
    simp only [loadPassesAux, Prod.mk.injEq] at h
    obtain ⟨-, hps, -⟩ := h
    subst hps
    exact ⟨rfl, by intro t ht; exact absurd ht (Nat.not_lt_zero t)⟩
  | cons d ds ih2 =>
    rw [loadPassesAux_cons] at h
    rcases hbp : buildPass g iw ih ow oh env i nTex d ds.isEmpty with ⟨op, g1⟩
    rw [hbp] at h
    cases op with
    | none =>
      simp only [Prod.mk.injEq] at h
      exact absurd h.1 (by simp)
    | some p =>
      simp only at h
      rcases hrec : loadPassesAux iw ih ow oh nTex g1
          (match d.aliasName with
           | some a => env ++ [(a, SrcRef.passOut i)]
           | none => env) (i + 1) ds with ⟨ok, ps', g2⟩
      rw [hrec] at h
      simp only [Prod.mk.injEq] at h
      obtain ⟨hok, hps, hg'⟩ := h
      subst hok hps hg'
      obtain ⟨hlen, hprops⟩ := ih2 g1 _ (i + 1) ps' g2 hrec
      obtain ⟨hsp, htg, -, -⟩ := buildPass_some g iw ih ow oh env i nTex d
        ds.isEmpty p g1 hbp
      refine ⟨by simp [hlen], ?_⟩
      intro t ht
      cases t with
      | zero =>
        refine ⟨by simpa using hsp, ?_⟩
        simp only [List.getD_cons_zero, List.length_cons, Nat.add_sub_cancel]
        rw [htg]
        cases ds with
        | nil => simp
        | cons d' ds' => simp
      | succ t' =>
        have ht' : t' < ds.length := by
          simpa [Nat.succ_lt_succ_iff] using ht
        obtain ⟨hsp', htg'⟩ := hprops t' ht'
        refine ⟨by simpa using hsp', ?_⟩
        simp only [List.getD_cons_succ, List.length_cons, Nat.add_sub_cancel]
        rw [htg']
        omega

theorem reallocTargetsAux_shape (ps : List Pass) (g : GPU) :
    ((reallocTargetsAux g ps).1).length = ps.length ∧
    ∀ t d, (((reallocTargetsAux g ps).1).getD t d).shaderPass =
        (ps.getD t d).shaderPass ∧
      ((((reallocTargetsAux g ps).1).getD t d).target = none ↔
        (ps.getD t d).target = none) := by
  induction ps generalizing g with
  | nil => exact ⟨rfl, fun t d => ⟨rfl, Iff.rfl⟩⟩
  | cons p ps ih =>
    cases hpt : p.target with
    | none =>
      simp only [reallocTargetsAux, hpt]
      rcases hrec : reallocTargetsAux g ps with ⟨ps', g'⟩
      obtain ⟨hlen, hel⟩ := ih g
      rw [hrec] at hlen hel
      simp only at hlen hel ⊢
      refine ⟨by simp [hlen], ?_⟩
      intro t d
      cases t with
      | zero => simp
      | succ t' => simpa using hel t' d
    | some hdl =>
      simp only [reallocTargetsAux, hpt, GPU.alloc]
      rcases hrec : reallocTargetsAux ((g.free hdl).alloc).2 ps with ⟨ps', g'⟩
      obtain ⟨hlen, hel⟩ := ih ((g.free hdl).alloc).2
      rw [hrec] at hlen hel
      simp only [GPU.alloc] at hrec
      rw [hrec]
      simp only at hlen hel ⊢
      refine ⟨by simp [hlen], ?_⟩
      intro t d
      cases t with
      | zero => simp [hpt]
      | succ t' => simpa using hel t' d

theorem setOutputSize_passes (s : PipelineState) (w h : Nat) :
    (setOutputSize s w h).passes = s.passes := by
  by_cases hc : (w = s.outputWidth && h = s.outputHeight) = true
  · simp [setOutputSize, hc]
  · simp only [setOutputSize]
    rw [if_neg hc]

theorem setOutputSize_fields (s : PipelineState) (w h : Nat) :
    (setOutputSize s w h).shaderPreset = s.shaderPreset ∧
    (setOutputSize s w h).passes = s.passes ∧
    (setOutputSize s w h).textures = s.textures := by
  by_cases hc : (w = s.outputWidth && h = s.outputHeight) = true
  · simp [setOutputSize, hc]
  · simp only [setOutputSize]
    rw [if_neg hc]
    exact ⟨rfl, rfl, rfl⟩

theorem drawTexture_closed (s : PipelineState) (g : GPU)
    (h : s.shaderPreset.isSome = false) : drawTexture s g = (s, g) := by
  simp [drawTexture, h]

theorem drawTexture_open (s : PipelineState) (g : GPU)
    (h : s.shaderPreset.isSome = true) :
    (drawTexture s g).1.passes =
      (if s.outputSizeChanged then reallocTargetsAux g s.passes
       else (s.passes, g)).1 ∧
    (drawTexture s g).1.shaderPreset = s.shaderPreset ∧
    (drawTexture s g).1.textures = s.textures ∧
    (drawTexture s g).1.outputSizeChanged = false ∧
    (drawTexture s g).2 =
      (if s.outputSizeChanged then reallocTargetsAux g s.passes
       else (s.passes, g)).2 := by
  simp only [drawTexture, h, if_true]
  rcases hre : (if s.outputSizeChanged then reallocTargetsAux g s.passes
      else (s.passes, g)) with ⟨ps, g'⟩
  rcases hrf : renderFrame s.frameCount ps s.rings with ⟨evs, rings'⟩
  simp

theorem setRing_length (rs : List HistoryRing) (i : Nat) (v : Val) :
    (setRing rs i v).length = rs.length := by
  induction rs generalizing i with
  | nil => rfl
  | cons r rs ih =>
    cases i with
    | zero => rfl
    | succ n => simpa [setRing] using ih n

theorem getD_setRing_self (rs : List HistoryRing) (i : Nat) (v : Val)
    (d : HistoryRing) (h : i < rs.length) :
    (setRing rs i v).getD i d = (rs.getD i d).push v := by
  induction rs generalizing i with
  | nil => exact absurd h (by simp)
  | cons r rs ih =>
    cases i with
    | zero => rfl
    | succ n =>
      simp only [setRing, List.getD_cons_succ]
      exact ih n (by simpa [Nat.succ_lt_succ_iff] using h)

theorem getD_setRing_ne (rs : List HistoryRing) (i j : Nat) (v : Val)
    (d : HistoryRing) (h : j ≠ i) :
    (setRing rs i v).getD j d = rs.getD j d := by
  induction rs generalizing i j with
  | nil => rfl
  | cons r rs ih =>
    cases i with
    | zero =>
      cases j with
      | zero => exact absurd rfl h
      | succ m => rfl
    | succ n =>
      cases j with
      | zero => rfl
      | succ m =>
        simp only [setRing, List.getD_cons_succ]
        exact ih n m (by omega)

theorem setRing_out_of_range (rs : List HistoryRing) (i : Nat) (v : Val)
    (h : rs.length ≤ i) : setRing rs i v = rs := by
  induction rs generalizing i with
  | nil => rfl
  | cons r rs ih =>
    cases i with
    | zero => exact absurd h (by simp)
    | succ n => simpa [setRing] using ih n (by simpa [Nat.succ_le_succ_iff] using h)

theorem ringAfter_cap (outF : Nat → Val) (cap N : Nat) :
    (ringAfter outF cap N).cap = cap := by
  induction N with
  | zero => rfl
  | succ n ih => simpa [ringAfter, HistoryRing.push] using ih

theorem ringAfter_get (outF : Nat → Val) (cap N k : Nat) (hk : k < cap) :
    (ringAfter outF cap N).get k =
      if k < N then outF (N - 1 - k) else Val.ph := by
  induction N generalizing k with
  | zero => simp [ringAfter, emptyRing, HistoryRing.get]
  | succ n ih =>
    simp only [ringAfter, HistoryRing.push, HistoryRing.get, ringAfter_cap]
    rw [getD_take, if_pos hk]
    cases k with
    | zero => simp
    | succ k' =>
      simp only [List.getD_cons_succ]
      have hk' : k' < cap := by omega
      have := ih k' hk'
      simp only [HistoryRing.get] at this
      rw [this]
      by_cases hkn : k' < n
      · rw [if_pos hkn, if_pos (by omega)]
        congr 1
        omega
      · rw [if_neg hkn, if_neg (by omega)]

theorem capOfSamplers_ge (ss : List TextureSampler) (smp : TextureSampler)
    (hm : smp ∈ ss) (ht : smp.type = TexSamplerKind.kTypePrev) :
    smp.index + 1 ≤ capOfSamplers ss := by
  induction ss with
  | nil => exact absurd hm (by simp)
  | cons s rest ih =>
    rcases List.mem_cons.mp hm with heq | hmem
    · subst heq
      simp only [capOfSamplers, ht]
      exact le_max_left _ _
    · rcases hst : s.type with h1 | h2 | h3 <;>
        simp only [capOfSamplers, hst] <;>
        first
          | exact ih hmem
          | exact le_trans (ih hmem) (le_max_right _ _)

theorem resolveVal_pass (i : Nat) (outs : List Val) (rings : List HistoryRing)
    (s : TextureSampler) (h : s.type = TexSamplerKind.kTypePass) :
    resolveVal i outs rings s = outs.getD s.index Val.ph := by
  simp only [resolveVal, h]

theorem resolveVal_prev (i : Nat) (outs : List Val) (rings : List HistoryRing)
    (s : TextureSampler) (h : s.type = TexSamplerKind.kTypePrev) :
    resolveVal i outs rings s = (rings.getD i (emptyRing 0)).get s.index := by
  simp only [resolveVal, h]

theorem runPasses_nil (f : Nat) (outs : List Val) (rings : List HistoryRing)
    (i : Nat) : runPasses f outs rings i [] = ([], rings) := rfl

theorem runPasses_cons (f : Nat) (outs : List Val) (rings : List HistoryRing)
    (i : Nat) (p : Pass) (ps : List Pass) :
    runPasses f outs rings i (p :: ps) =
      match runPasses f (outs ++ [Val.out f i]) (setRing rings i (Val.out f i))
          (i + 1) ps with
      | (evs, ringsF) => (mkEvent f i p outs rings :: evs, ringsF) := rfl

theorem runPasses_events_length (ps : List Pass) (f : Nat) (outs : List Val)
    (rings : List HistoryRing) (i : Nat) :
    (runPasses f outs rings i ps).1.length = ps.length := by
  induction ps generalizing outs rings i with
  | nil => rfl
  | cons p ps ih =>
    rw [runPasses_cons]
    rcases hrec : runPasses f (outs ++ [Val.out f i])
        (setRing rings i (Val.out f i)) (i + 1) ps with ⟨evs, ringsF⟩
    have := ih (outs ++ [Val.out f i]) (setRing rings i (Val.out f i)) (i + 1)
    rw [hrec] at this
    simpa using this

theorem runPasses_event_fields (ps : List Pass) (f : Nat) (outs : List Val)
    (rings : List HistoryRing) (i t : Nat) (ht : t < ps.length) :
    ((runPasses f outs rings i ps).1.getD t defaultEvent).passIndex = i + t ∧
    ((runPasses f outs rings i ps).1.getD t defaultEvent).frameCountUniform =
      (setupPassUniforms (ps.getD t defaultPass) f).1 ∧
    ((runPasses f outs rings i ps).1.getD t defaultEvent).uniformLookups =
      (setupPassUniforms (ps.getD t defaultPass) f).2 := by
  induction ps generalizing outs rings i t with
  | nil => exact absurd ht (by simp)
  | cons p ps ih =>
    rw [runPasses_cons]
    rcases hrec : runPasses f (outs ++ [Val.out f i])
        (setRing rings i (Val.out f i)) (i + 1) ps with ⟨evs, ringsF⟩
    cases t with
    | zero => exact ⟨rfl, rfl, rfl⟩
    | succ t' =>
      have ht' : t' < ps.length := by simpa [Nat.succ_lt_succ_iff] using ht
      have := ih (outs ++ [Val.out f i]) (setRing rings i (Val.out f i))
        (i + 1) t' ht'
      rw [hrec] at this
      simp only [List.getD_cons_succ]
      refine ⟨?_, this.2.1, this.2.2⟩
      rw [this.1]
      omega

theorem runPasses_reads_pass (ps : List Pass) (f : Nat)
    (rings : List HistoryRing) (i t : Nat) (outs : List Val)
    (houts : outs = (List.range i).map fun j => Val.out f j)
    (ht : t < ps.length) (sv : TextureSampler × Val)
    (hm : sv ∈ ((runPasses f outs rings i ps).1.getD t defaultEvent).reads)
    (htp : sv.1.type = TexSamplerKind.kTypePass) (hlt : sv.1.index < i + t) :
    sv.2 = Val.out f sv.1.index := by
  induction ps generalizing outs rings i t with
  | nil => exact absurd ht (by simp)
  | cons p ps ih =>
    rw [runPasses_cons] at hm
    rcases hrec : runPasses f (outs ++ [Val.out f i])
        (setRing rings i (Val.out f i)) (i + 1) ps with ⟨evs, ringsF⟩
    rw [hrec] at hm
    cases t with
    | zero =>
      simp only [List.getD_cons_zero, mkEvent] at hm
      rcases List.mem_map.mp hm with ⟨smp, hsmp, hsv⟩
      subst hsv
      have htp' : smp.type = TexSamplerKind.kTypePass := htp
      have hlt' : smp.index < i := by simpa using hlt
      show resolveVal i outs rings smp = Val.out f smp.index
      rw [resolveVal_pass i outs rings smp htp', houts]
      exact getD_map_range _ i smp.index Val.ph hlt'
    | succ t' =>
      have ht' : t' < ps.length := by simpa [Nat.succ_lt_succ_iff] using ht
      have houts' : outs ++ [Val.out f i] =
          (List.range (i + 1)).map fun j => Val.out f j := by
        rw [List.range_succ, List.map_append, houts]
        rfl
      have := ih (setRing rings i (Val.out f i)) (i + 1) t'
        (outs ++ [Val.out f i]) houts' ht'
      rw [hrec] at this
      exact this (by simpa using hm) (by omega)

theorem runPasses_reads_prev (ps : List Pass) (f : Nat) (outs : List Val)
    (rings : List HistoryRing) (i t : Nat)
    (hr : ∀ u, u < ps.length → rings.getD (i + u) (emptyRing 0) =
      ringAfter (fun fr => Val.out fr (i + u))
        (capOf (ps.getD u defaultPass)) f)
    (ht : t < ps.length) (sv : TextureSampler × Val)
    (hm : sv ∈ ((runPasses f outs rings i ps).1.getD t defaultEvent).reads)
    (htp : sv.1.type = TexSamplerKind.kTypePrev) :
    sv.2 = if sv.1.index < f then Val.out (f - 1 - sv.1.index) (i + t)
           else Val.ph := by
  induction ps generalizing outs rings i t with
  | nil => exact absurd ht (by simp)
  | cons p ps ih =>
    rw [runPasses_cons] at hm
    rcases hrec : runPasses f (outs ++ [Val.out f i])
        (setRing rings i (Val.out f i)) (i + 1) ps with ⟨evs, ringsF⟩
    rw [hrec] at hm
    cases t with
    | zero =>
      simp only [List.getD_cons_zero, mkEvent] at hm
      rcases List.mem_map.mp hm with ⟨smp, hsmp, hsv⟩
      subst hsv
      have htp' : smp.type = TexSamplerKind.kTypePrev := htp
      have h0 := hr 0 (by simp)
      simp only [Nat.add_zero, List.getD_cons_zero] at h0
      have hcap : smp.index + 1 ≤ capOf p :=
        capOfSamplers_ge p.texSamplers smp hsmp htp'
      show resolveVal i outs rings smp =
        if smp.index < f then Val.out (f - 1 - smp.index) (i + 0) else Val.ph
      rw [resolveVal_prev i outs rings smp htp', h0, Nat.add_zero]
      exact ringAfter_get (fun fr => Val.out fr i) (capOf p) f smp.index
        (by omega)
    | succ t' =>
      have ht' : t' < ps.length := by simpa [Nat.succ_lt_succ_iff] using ht
      have hr' : ∀ u, u < ps.length →
          (setRing rings i (Val.out f i)).getD (i + 1 + u) (emptyRing 0) =
          ringAfter (fun fr => Val.out fr (i + 1 + u))
            (capOf (ps.getD u defaultPass)) f := by
        intro u hu
        rw [getD_setRing_ne rings i (i + 1 + u) _ _ (by omega)]
        have := hr (u + 1) (by simpa [Nat.succ_lt_succ_iff] using hu)
        simp only [List.getD_cons_succ] at this
        rw [show i + (u + 1) = i + 1 + u by omega] at this
        exact this
      have := ih (outs ++ [Val.out f i]) (setRing rings i (Val.out f i))
        (i + 1) t' hr' ht'
      rw [hrec] at this
      have hres := this (by simpa using hm)
      rw [show i + 1 + t' = i + (t' + 1) by omega] at hres
      exact hres

theorem runPasses_rings_length (ps : List Pass) (f : Nat) (outs : List Val)
    (rings : List HistoryRing) (i : Nat) :
    (runPasses f outs rings i ps).2.length = rings.length := by
  induction ps generalizing outs rings i with
  | nil => rfl
  | cons p ps ih =>
    rw [runPasses_cons]
    rcases hrec : runPasses f (outs ++ [Val.out f i])
        (setRing rings i (Val.out f i)) (i + 1) ps with ⟨evs, ringsF⟩
    have := ih (outs ++ [Val.out f i]) (setRing rings i (Val.out f i)) (i + 1)
    rw [hrec] at this
    simpa [setRing_length] using this

theorem runPasses_rings_getD (ps : List Pass) (f : Nat) (outs : List Val)
    (rings : List HistoryRing) (i j : Nat) (d : HistoryRing) :
    (runPasses f outs rings i ps).2.getD j d =
      if i ≤ j ∧ j < i + ps.length ∧ j < rings.length then
        (rings.getD j d).push (Val.out f j)
      else rings.getD j d := by
  induction ps generalizing outs rings i with
  | nil =>
    rw [runPasses_nil]
    rw [if_neg (by simp only [List.length_nil]; omega)]
  | cons p ps ih =>
    rw [runPasses_cons]
    rcases hrec : runPasses f (outs ++ [Val.out f i])
        (setRing rings i (Val.out f i)) (i + 1) ps with ⟨evs, ringsF⟩
    have hthis := ih (outs ++ [Val.out f i]) (setRing rings i (Val.out f i)) (i + 1)
    rw [hrec] at hthis
    simp only at hthis ⊢
    rw [setRing_length] at hthis
    by_cases hji : j = i
    · subst hji
      rw [if_neg (by omega)] at hthis
      rw [hthis]
      by_cases hlen : j < rings.length
      · rw [getD_setRing_self rings j (Val.out f j) d hlen,
          if_pos ⟨le_refl j, by simp only [List.length_cons]; omega, hlen⟩]
      · rw [setRing_out_of_range rings j (Val.out f j) (by omega),
          if_neg (by simp only [List.length_cons]; omega)]
    · rw [getD_setRing_ne rings i j _ _ hji] at hthis
      rw [hthis]
      by_cases hcond : i + 1 ≤ j ∧ j < i + 1 + ps.length ∧ j < rings.length
      · rw [if_pos hcond, if_pos (by simp only [List.length_cons]; omega)]
      · rw [if_neg hcond, if_neg (by simp only [List.length_cons]; omega)]

theorem initRings_length (ps : List Pass) : (initRings ps).length = ps.length := by
  simp [initRings]

theorem initRings_getD (ps : List Pass) (t : Nat) (ht : t < ps.length) :
    (initRings ps).getD t (emptyRing 0) =
      emptyRing (capOf (ps.getD t defaultPass)) := by
  rw [List.getD_eq_getElem _ _ (by simpa [initRings] using ht),
    List.getD_eq_getElem _ _ ht]
  simp [initRings]

theorem renderCalls_zero (passes : List Pass) :
    renderCalls passes 0 = ([], initRings passes) := rfl

theorem renderCalls_succ (passes : List Pass) (n : Nat) :
    renderCalls passes (n + 1) =
      match renderCalls passes n with
      | (trs, rings) =>
        match renderFrame n passes rings with
        | (evs, rings') => (trs ++ [evs], rings') := rfl

theorem renderCalls_traces_length (passes : List Pass) (N : Nat) :
    (renderCalls passes N).1.length = N := by
  induction N with
  | zero => rfl
  | succ n ih =>
    rw [renderCalls_succ]
    rcases hrc : renderCalls passes n with ⟨trs, rings⟩
    rcases hrf : renderFrame n passes rings with ⟨evs, rings'⟩
    rw [hrc] at ih
    simpa using ih

theorem renderCalls_rings_length (passes : List Pass) (N : Nat) :
    (renderCalls passes N).2.length = passes.length := by
  induction N with
  | zero => simpa [renderCalls_zero] using initRings_length passes
  | succ n ih =>
    rw [renderCalls_succ]
    rcases hrc : renderCalls passes n with ⟨trs, rings⟩
    rw [hrc] at ih
    simp only at ih
    simp only [renderFrame]
    rcases hrf : runPasses n [] rings 0 passes with ⟨evs, rings'⟩
    simp only
    have hrl := runPasses_rings_length passes n [] rings 0
    rw [hrf] at hrl
    simp only at hrl
    rw [hrl]
    exact ih

theorem renderCalls_rings (passes : List Pass) (N t : Nat)
    (ht : t < passes.length) :
    (renderCalls passes N).2.getD t (emptyRing 0) =
      ringAfter (fun fr => Val.out fr t) (capOf (passes.getD t defaultPass)) N := by
  induction N with
  | zero => simpa [renderCalls_zero, ringAfter] using initRings_getD passes t ht
  | succ n ih =>
    rw [renderCalls_succ]
    rcases hrc : renderCalls passes n with ⟨trs, rings⟩
    rw [hrc] at ih
    simp only at ih
    have hlen : rings.length = passes.length := by
      have h2 := renderCalls_rings_length passes n
      rw [hrc] at h2
      exact h2
    simp only [renderFrame]
    rcases hrf : runPasses n [] rings 0 passes with ⟨evs, rings'⟩
    simp only
    have hget := runPasses_rings_getD passes n [] rings 0 t (emptyRing 0)
    rw [hrf] at hget
    simp only at hget
    rw [if_pos ⟨Nat.zero_le t, by omega, by omega⟩] at hget
    rw [hget, ih]
    rfl

theorem renderCalls_trace_getD (passes : List Pass) (N f : Nat) (hf : f < N) :
    (renderCalls passes N).1.getD f [] =
      (renderFrame f passes ((renderCalls passes f).2)).1 := by
  induction N with
  | zero => exact absurd hf (by omega)
  | succ n ih =>
    rw [renderCalls_succ]
    rcases hrc : renderCalls passes n with ⟨trs, rings⟩
    simp only
    have hlen : trs.length = n := by
      have h2 := renderCalls_traces_length passes n
      rw [hrc] at h2
      exact h2
    rcases hrf : renderFrame n passes rings with ⟨evs, rings'⟩
    simp only
    by_cases hfn : f < n
    · rw [List.getD_append _ _ _ _ (by omega)]
      have h3 := ih hfn
      rw [hrc] at h3
      exact h3
    · have hfe : f = n := by omega
      subst hfe
      rw [List.getD_append_right _ _ _ _ (by omega), hlen, Nat.sub_self]
      simp only [List.getD_cons_zero]
      rw [hrc]
      simp only
      rw [hrf]

theorem runPasses_map_passIndex (ps : List Pass) (f : Nat) (outs : List Val)
    (rings : List HistoryRing) (i : Nat) :
    (runPasses f outs rings i ps).1.map DrawEvent.passIndex =
      List.range' i ps.length := by
  induction ps generalizing outs rings i with
  | nil => rfl
  | cons p ps ih =>
    rw [runPasses_cons]
    rcases hrec : runPasses f (outs ++ [Val.out f i])
        (setRing rings i (Val.out f i)) (i + 1) ps with ⟨evs, ringsF⟩
    have h2 := ih (outs ++ [Val.out f i]) (setRing rings i (Val.out f i)) (i + 1)
    rw [hrec] at h2
    simp only at h2 ⊢
    rw [List.length_cons, List.range'_succ i ps.length 1, List.map_cons, h2]
    rfl

theorem applyOps_nil (sg : PipelineState × GPU) : applyOps sg [] = sg := rfl

theorem applyOps_cons (sg : PipelineState × GPU) (op : PipelineOp)
    (ops : List PipelineOp) :
    applyOps sg (op :: ops) = applyOps (applyOp sg op) ops := rfl

theorem applyOp_emptyInv (s : PipelineState) (g : GPU) (op : PipelineOp)
    (h : s.shaderPreset = none → s.passes = [] ∧ s.textures = []) :
    (applyOp (s, g) op).1.shaderPreset = none →
      (applyOp (s, g) op).1.passes = [] ∧ (applyOp (s, g) op).1.textures = [] := by
  cases op with
  | openOp ctx pr iw ih =>
    rcases hop : openPipeline ctx pr iw ih s g with ⟨ok, s', g'⟩
    simp only [applyOp, hop]
    cases ok with
    | true =>
      intro hnone
      have h1 := open_success ctx pr iw ih s s' g g' hop
      rw [h1.1] at hnone
      exact absurd hnone (by simp)
    | false =>
      intro _
      have h1 := open_fail_state ctx pr iw ih s s' g g' hop
      rw [h1, closePipeline_fst]
      exact ⟨rfl, rfl⟩
  | closeOp =>
    intro _
    exact ⟨rfl, rfl⟩
  | setSizeOp w h2 =>
    intro hnone
    obtain ⟨hp, hps, ht⟩ := setOutputSize_fields s w h2
    show (setOutputSize s w h2).passes = [] ∧ (setOutputSize s w h2).textures = []
    rw [hps, ht]
    refine h ?_
    rw [← hp]
    exact hnone
  | drawOp =>
    by_cases hinit : s.shaderPreset.isSome = true
    · intro hnone
      obtain ⟨-, hpre, -, -, -⟩ := drawTexture_open s g hinit
      have hnone' : s.shaderPreset = none := by
        rw [← hpre]
        exact hnone
      rw [hnone'] at hinit
      exact absurd hinit (by simp)
    · have hfalse : s.shaderPreset.isSome = false := by simpa using hinit
      show (drawTexture s g).1.shaderPreset = none →
        (drawTexture s g).1.passes = [] ∧ (drawTexture s g).1.textures = []
      rw [drawTexture_closed s g hfalse]
      exact h

theorem applyOps_emptyInv (ops : List PipelineOp) (s : PipelineState) (g : GPU)
    (h : s.shaderPreset = none → s.passes = [] ∧ s.textures = []) :
    (applyOps (s, g) ops).1.shaderPreset = none →
      (applyOps (s, g) ops).1.passes = [] ∧
      (applyOps (s, g) ops).1.textures = [] := by
  induction ops generalizing s g with
  | nil => exact h
  | cons op ops ih =>
    rw [applyOps_cons]
    rcases hstep : applyOp (s, g) op with ⟨s1, g1⟩
    have h1 := applyOp_emptyInv s g op h
    rw [hstep] at h1
    exact ih s1 g1 h1

theorem passStructure_congr (pr : ShaderPreset) (s1 s2 : PipelineState)
    (h : s1.passes = s2.passes) (hst : passStructure pr s1) :
    passStructure pr s2 := by
  unfold passStructure at hst ⊢
  rw [← h]
  exact hst

theorem reallocTargetsAux_passStructure (pr : ShaderPreset)
    (ps : List Pass) (g : GPU)
    (hlen : ps.length = pr.passes.length)
    (hel : ∀ i, i < ps.length →
      (ps.getD i defaultPass).shaderPass = some (pr.passes.getD i defaultDesc) ∧
      ((ps.getD i defaultPass).target = none ↔ i = ps.length - 1)) :
    ((reallocTargetsAux g ps).1).length = pr.passes.length ∧
    ∀ i, i < ((reallocTargetsAux g ps).1).length →
      (((reallocTargetsAux g ps).1.getD i defaultPass)).shaderPass =
        some (pr.passes.getD i defaultDesc) ∧
      ((((reallocTargetsAux g ps).1.getD i defaultPass)).target = none ↔
        i = ((reallocTargetsAux g ps).1).length - 1) := by
  obtain ⟨hrl, hre⟩ := reallocTargetsAux_shape ps g
  refine ⟨by rw [hrl, hlen], ?_⟩
  intro i hi
  have hi' : i < ps.length := by rw [← hrl]; exact hi
  obtain ⟨he1, he2⟩ := hre i defaultPass
  obtain ⟨ho1, ho2⟩ := hel i hi'
  refine ⟨by rw [he1, ho1], ?_⟩
  rw [he2, ho2, hrl]

theorem applyOp_frame_structure (op : PipelineOp) (hop : op.isFrameOp = true)
    (pr : ShaderPreset) (s : PipelineState) (g : GPU)
    (hst : passStructure pr s) : passStructure pr (applyOp (s, g) op).1 := by
  cases op with
  | openOp ctx pr2 iw ih => exact absurd hop (by simp [PipelineOp.isFrameOp])
  | closeOp => exact absurd hop (by simp [PipelineOp.isFrameOp])
  | setSizeOp w h =>
    exact passStructure_congr pr s _ (setOutputSize_passes s w h).symm hst
  | drawOp =>
    by_cases hinit : s.shaderPreset.isSome = true
    · obtain ⟨hpasses, -, -, -, -⟩ := drawTexture_open s g hinit
      by_cases hch : s.outputSizeChanged = true
      · rw [if_pos hch] at hpasses
        obtain ⟨hlen0, hel0⟩ := hst
        obtain ⟨hl2, he2⟩ := reallocTargetsAux_passStructure pr s.passes g
          hlen0 hel0
        show passStructure pr (drawTexture s g).1
        refine ⟨?_, ?_⟩
        · rw [show (drawTexture s g).1.passes =
            (reallocTargetsAux g s.passes).1 from hpasses]
          exact hl2
        · intro i hi
          rw [show (drawTexture s g).1.passes =
            (reallocTargetsAux g s.passes).1 from hpasses] at hi ⊢
          exact he2 i hi
      · have hch' : s.outputSizeChanged = false := by simpa using hch
        rw [hch'] at hpasses
        simp only [Bool.false_eq_true, if_false] at hpasses
        exact passStructure_congr pr s _ hpasses.symm hst
    · have hfalse : s.shaderPreset.isSome = false := by simpa using hinit
      show passStructure pr (drawTexture s g).1
      rw [drawTexture_closed s g hfalse]
      exact hst

theorem applyOps_passStructure (ops : List PipelineOp) (pr : ShaderPreset)
    (s : PipelineState) (g : GPU) (hst : passStructure pr s)
    (hops : ∀ op, op ∈ ops → op.isFrameOp = true) :
    passStructure pr (applyOps (s, g) ops).1 := by
  induction ops generalizing s g with
  | nil => exact hst
  | cons op ops ih =>
    rw [applyOps_cons]
    rcases hstep : applyOp (s, g) op with ⟨s1, g1⟩
    have h1 := applyOp_frame_structure op (hops op (by simp)) pr s g hst
    rw [hstep] at h1
    exact ih s1 g1 h1 fun o ho => hops o (by simp [ho])

/-- C10: every default-constructed Pass record has its shaderPass, shader,
target and inputTexture pointers null and its hasFrameCount flag false, and
every default-constructed Texture record has its textureData and glTexture
pointers null; a freshly constructed record never claims to own a GPU
resource or to need the frame-count uniform. -/
theorem c10_default_records :
    defaultPass.shaderPass = none ∧ defaultPass.shader = none ∧
    defaultPass.target = none ∧ defaultPass.inputTexture = none ∧
    defaultPass.hasFrameCount = false ∧
    defaultTexture.textureData = none ∧ defaultTexture.glTexture = none :=
  ⟨rfl, rfl, rfl, rfl, rfl, rfl, rfl⟩

/-- C8: isSupportedByContext returns true iff the active GPU context reports
shader support, multi-texture support and framebuffer-object support; when
it is false, open() fails and performs no allocation (the allocation
counter is unchanged). -/
theorem c8_isSupportedByContext (ctx : Context) (pr : ShaderPreset)
    (iw ih : Nat) (s : PipelineState) (g : GPU) :
    (isSupportedByContext ctx = true ↔
      ctx.shadersSupported = true ∧ ctx.multitextureSupported = true ∧
      ctx.framebufferObjectSupported = true) ∧
    (isSupportedByContext ctx = false →
      (openPipeline ctx pr iw ih s g).1 = false ∧
      ((openPipeline ctx pr iw ih s g).2.2).allocCount = g.allocCount) := by
  constructor
  · simp only [isSupportedByContext, Bool.and_eq_true]
    exact and_assoc
  · intro hf
    rw [open_unsupported ctx pr iw ih s g hf]
    exact ⟨rfl, closePipeline_allocCount s g⟩

/-- Witness for C8 at a context lacking multitexture support. -/
theorem c8_isSupportedByContext_witness :
    (openPipeline badCtx demoPreset 64 48 initialState initialGPU).1 = false ∧
    ((openPipeline badCtx demoPreset 64 48 initialState
        initialGPU).2.2).allocCount = initialGPU.allocCount :=
  (c8_isSupportedByContext badCtx demoPreset 64 48 initialState initialGPU).2
    (by decide)

/-- C5: during binding resolution, a symbolic name that matches both a
registered alias (here: a lookup texture registered under that name) and a
positional "pass N" reference resolves to the alias: the sampler is bound
to Texture(i), not Pass(j). -/
theorem c5_alias_priority (env : List (String × SrcRef))
    (passId nTextures : Nat) (name : String) (i j : Nat)
    (halias : lookupAliasEnv env name = some (SrcRef.lookupTex i))
    (_hpos : parseIndexed "pass" name = some j) (_hj : j < passId) :
    resolveName env passId nTextures name = some (SrcRef.lookupTex i) ∧
    buildTexSamplers passId nTextures env [name] 1 =
      [{ unit := 1, type := TexSamplerKind.kTypeTexture, index := i }] := by
  have hres : resolveName env passId nTextures name =
      some (SrcRef.lookupTex i) := by
    simp [resolveName, halias]
  refine ⟨hres, ?_⟩
  simp [buildTexSamplers, hres, SrcRef.toSamplerKind]

/-- Witness for C5: a lookup texture whose id is literally "pass0" wins over
the positional pass-0 reference. -/
theorem c5_alias_priority_witness :
    resolveName (texAliasEnv
        [{ id := "pass0", path := "p.png", loadable := true }]) 1 1 "pass0" =
      some (SrcRef.lookupTex 0) ∧
    buildTexSamplers 1 1 (texAliasEnv
        [{ id := "pass0", path := "p.png", loadable := true }]) ["pass0"] 1 =
      [{ unit := 1, type := TexSamplerKind.kTypeTexture, index := 0 }] :=
  c5_alias_priority (texAliasEnv
      [{ id := "pass0", path := "p.png", loadable := true }]) 1 1 "pass0" 0 0
    (by decide) (by decide) (by decide)

/-- C6: setOutputSize never reallocates (the GPU state is untouched by the
operation); a call with the currently observed size is a complete no-op;
the deferred reallocation runs inside the next drawTexture, only when the
geometry-changed flag is set, and clears the flag. -/
theorem c6_setOutputSize_deferral (s : PipelineState) (g : GPU) (w h : Nat) :
    (applyOp (s, g) (PipelineOp.setSizeOp w h)).2 = g ∧
    (w = s.outputWidth → h = s.outputHeight → setOutputSize s w h = s) ∧
    (s.outputSizeChanged = false → (drawTexture s g).2 = g) ∧
    (s.shaderPreset.isSome = true → s.outputSizeChanged = true →
      (drawTexture s g).2 = (reallocTargetsAux g s.passes).2 ∧
      (drawTexture s g).1.outputSizeChanged = false) := by
  refine ⟨rfl, ?_, ?_, ?_⟩
  · intro hw hh
    simp [setOutputSize, ← hw, ← hh]
  · intro hch
    by_cases hinit : s.shaderPreset.isSome = true
    · obtain ⟨-, -, -, -, hgpu⟩ := drawTexture_open s g hinit
      rw [hgpu, hch]
      simp
    · have hfalse : s.shaderPreset.isSome = false := by simpa using hinit
      rw [drawTexture_closed s g hfalse]
  · intro hinit hch
    obtain ⟨-, -, -, hflag, hgpu⟩ := drawTexture_open s g hinit
    rw [hgpu, hch]
    exact ⟨by simp, hflag⟩

/-- Witness for C6: an identical-size call is a no-op, and a render with no
pending geometry change leaves the GPU untouched. -/
theorem c6_setOutputSize_deferral_witness :
    setOutputSize initialState 0 0 = initialState ∧
    (drawTexture openedS openedG).2 = openedG :=
  ⟨(c6_setOutputSize_deferral initialState initialGPU 0 0).2.1 rfl rfl,
   (c6_setOutputSize_deferral openedS openedG 0 0).2.2.1 (by decide)⟩

/-- C9: isInitialized is true exactly when the stored preset pointer is
non-null; along any call sequence from the initial pipeline the Pass and
Texture collections are non-empty only while it is true; a successful
open() makes it true, a failed open() and close() leave it false. -/
theorem c9_isInitialized_iff_loaded :
    (∀ ops : List PipelineOp,
      (isInitialized (applyOps (initialState, initialGPU) ops).1 = true ↔
        (applyOps (initialState, initialGPU) ops).1.shaderPreset ≠ none) ∧
      (((applyOps (initialState, initialGPU) ops).1.passes ≠ [] ∨
        (applyOps (initialState, initialGPU) ops).1.textures ≠ []) →
        isInitialized (applyOps (initialState, initialGPU) ops).1 = true)) ∧
    (∀ (ctx : Context) (pr : ShaderPreset) (iw ih : Nat) (s s' : PipelineState)
      (g g' : GPU), openPipeline ctx pr iw ih s g = (true, s', g') →
      isInitialized s' = true) ∧
    (∀ (ctx : Context) (pr : ShaderPreset) (iw ih : Nat) (s s' : PipelineState)
      (g g' : GPU), openPipeline ctx pr iw ih s g = (false, s', g') →
      isInitialized s' = false) ∧
    (∀ (s : PipelineState) (g : GPU),
      isInitialized (closePipeline s g).1 = false) := by
  refine ⟨?_, ?_, ?_, ?_⟩
  · intro ops
    constructor
    · simp [isInitialized, Option.isSome_iff_ne_none]
    · intro hne
      by_cases hp : (applyOps (initialState, initialGPU) ops).1.shaderPreset = none
      · have hempty := applyOps_emptyInv ops initialState initialGPU
          (fun _ => ⟨rfl, rfl⟩) hp
        rcases hne with h1 | h2
        · exact absurd hempty.1 h1
        · exact absurd hempty.2 h2
      · simpa [isInitialized, Option.isSome_iff_ne_none] using hp
  · intro ctx pr iw ih s s' g g' h
    have h1 := open_success ctx pr iw ih s s' g g' h
    simp [isInitialized, h1.1]
  · intro ctx pr iw ih s s' g g' h
    rw [open_fail_state ctx pr iw ih s s' g g' h]
    rfl
  · intro s g
    rfl

/-- Witness for C9: after opening a valid preset the pass array is
non-empty, so isInitialized must report true. -/
theorem c9_isInitialized_iff_loaded_witness :
    isInitialized (applyOps (initialState, initialGPU)
      [PipelineOp.openOp goodCtx tinyPreset 64 48]).1 = true :=
  (c9_isInitialized_iff_loaded.1
    [PipelineOp.openOp goodCtx tinyPreset 64 48]).2 (Or.inl (by decide))

/-- C1: whenever open() fails - unsupported context, lookup-texture load
failure, shader compile failure or zero-area render target - it returns
false with no partial pipeline installed: the state holds no preset, no
passes and no textures, and every GPU resource allocated in the attempt
(and by a previously loaded preset, torn down by the implicit close) has
been released. -/
theorem c1_open_failure_rollback (ctx : Context) (pr : ShaderPreset)
    (iw ih : Nat) (s s' : PipelineState) (g g' : GPU)
    (hwf : g.live = ↑(ownedHandles s))
    (h : openPipeline ctx pr iw ih s g = (false, s', g')) :
    isInitialized s' = false ∧ s'.shaderPreset = none ∧ s'.passes = [] ∧
    s'.textures = [] ∧ g'.live = 0 := by
  have hs := open_fail_state ctx pr iw ih s s' g g' h
  have hl := open_fail_live ctx pr iw ih s s' g g' hwf h
  subst hs
  exact ⟨rfl, rfl, rfl, rfl, hl⟩

/-- Witness for C1: reopening the running demonstration preset with a
preset whose shader fails to compile leaves the pipeline uninitialised and
owning nothing. -/
theorem c1_open_failure_rollback_witness :
    isInitialized reopenS = false ∧ reopenS.shaderPreset = none ∧
    reopenS.passes = [] ∧ reopenS.textures = [] ∧ reopenG.live = 0 :=
  c1_open_failure_rollback goodCtx badPreset 64 48 openedS reopenS openedG
    reopenG (by decide) (by decide)

/-- C2: after a successful open() of a preset with P passes the pipeline
holds exactly P Pass records bound to the preset's descriptors in original
order, with a render target on every pass except exactly the last; the
same shape persists across any sequence of per-frame operations
(setOutputSize and drawTexture) until the matching close. -/
theorem c2_pass_structure (ctx : Context) (pr : ShaderPreset) (iw ih : Nat)
    (s s' : PipelineState) (g g' : GPU) (ops : List PipelineOp)
    (hopen : openPipeline ctx pr iw ih s g = (true, s', g'))
    (_hne : pr.passes ≠ [])
    (hops : ∀ op, op ∈ ops → op.isFrameOp = true) :
    passStructure pr s' ∧ passStructure pr (applyOps (s', g') ops).1 := by
  obtain ⟨hpr, hrings, ts, g1, htex, hpass, hts⟩ :=
    open_success ctx pr iw ih s s' g g' hopen
  obtain ⟨hlen, hprops⟩ := loadPassesAux_structure pr.passes iw ih
    s.outputWidth s.outputHeight pr.textures.length g1
    (texAliasEnv pr.textures) 0 s'.passes g' hpass
  have hstruct : passStructure pr s' := by
    refine ⟨hlen, ?_⟩
    intro i hi
    have hi' : i < pr.passes.length := by rw [← hlen]; exact hi
    obtain ⟨h1, h2⟩ := hprops i hi'
    refine ⟨h1, ?_⟩
    rw [hlen]
    exact h2
  exact ⟨hstruct, applyOps_passStructure ops pr s' g' hstruct hops⟩

/-- Witness for C2: the opened demonstration preset keeps its two-pass
shape, terminal pass target-less, across a render call. -/
theorem c2_pass_structure_witness :
    passStructure demoPreset openedS ∧
    passStructure demoPreset
      (applyOps (openedS, openedG) [PipelineOp.drawOp]).1 :=
  c2_pass_structure goodCtx demoPreset 64 48 initialState openedS initialGPU
    openedG [PipelineOp.drawOp] (by decide) (by decide)
    (by intro op hop; simp only [List.mem_singleton] at hop; subst hop; rfl)

theorem setupPassUniforms_spec (p : Pass) (d : ShaderPassDesc) (f : Nat)
    (hd : p.shaderPass = some d) :
    ((setupPassUniforms p f).1 =
      if p.hasFrameCount then
        some (match d.frameCountMod with | some m => f % m | none => f)
      else none) ∧
    (p.hasFrameCount = false → (setupPassUniforms p f).2 = 0) ∧
    (p.hasFrameCount = true → (setupPassUniforms p f).2 = 1) := by
  refine ⟨?_, ?_, ?_⟩
  · by_cases hflag : p.hasFrameCount = true
    · simp only [setupPassUniforms, hflag, if_true, reduceFrameCount, hd,
        frameCountValue]
    · have h2 : p.hasFrameCount = false := by simpa using hflag
      simp only [setupPassUniforms, h2, Bool.false_eq_true, if_false]
  · intro h2
    simp only [setupPassUniforms, h2, Bool.false_eq_true, if_false]
  · intro h2
    simp only [setupPassUniforms, h2, if_true]

/-- C7: on every render call and for every pass, the frame-count uniform is
supplied iff the pass's cached hasFrameCount flag is set; when supplied its
value is the frame count reduced modulo the declared modulus (raw when no
modulus is declared); when the flag is false no uniform lookup is
performed at all. -/
theorem c7_frame_count_uniform (passes : List Pass) (N f t : Nat)
    (d : ShaderPassDesc) (hf : f < N) (ht : t < passes.length)
    (hd : (passes.getD t defaultPass).shaderPass = some d) :
    ((((renderCalls passes N).1.getD f []).getD t
        defaultEvent).frameCountUniform =
      if (passes.getD t defaultPass).hasFrameCount then
        some (match d.frameCountMod with | some m => f % m | none => f)
      else none) ∧
    ((passes.getD t defaultPass).hasFrameCount = false →
      (((renderCalls passes N).1.getD f []).getD t
        defaultEvent).uniformLookups = 0) ∧
    ((passes.getD t defaultPass).hasFrameCount = true →
      (((renderCalls passes N).1.getD f []).getD t
        defaultEvent).uniformLookups = 1) := by
  rw [renderCalls_trace_getD passes N f hf]
  simp only [renderFrame]
  obtain ⟨hpi, hfc, hul⟩ := runPasses_event_fields passes f []
    ((renderCalls passes f).2) 0 t ht
  obtain ⟨hs1, hs2, hs3⟩ :=
    setupPassUniforms_spec (passes.getD t defaultPass) d f hd
  refine ⟨?_, ?_, ?_⟩
  · rw [hfc, hs1]
  · intro hflag
    rw [hul, hs2 hflag]
  · intro hflag
    rw [hul, hs3 hflag]

/-- Witness for C7: pass 0 of the opened demonstration preset declares
modulus 2, so render call 1 receives 1 mod 2. -/
theorem c7_frame_count_uniform_witness :
    (((renderCalls openedS.passes 2).1.getD 1 []).getD 0
        defaultEvent).frameCountUniform =
      if (openedS.passes.getD 0 defaultPass).hasFrameCount then
        some (match (demoPreset.passes.getD 0 defaultDesc).frameCountMod with
              | some m => 1 % m | none => 1)
      else none :=
  (c7_frame_count_uniform openedS.passes 2 1 0
    (demoPreset.passes.getD 0 defaultDesc) (by decide) (by decide)
    (by decide)).1

/-- C4: on every render call the passes execute exactly once each in
strictly ascending index order; a binding Pass(j) with j below the pass's
own index reads pass j's output of the same render call, while a Prev
binding only ever reads the placeholder or output produced by a strictly
earlier render call. -/
theorem c4_render_order (passes : List Pass) (N f : Nat) (hf : f < N) :
    ((renderCalls passes N).1.getD f []).map DrawEvent.passIndex =
      List.range passes.length ∧
    (∀ t, t < passes.length → ∀ sv : TextureSampler × Val,
      sv ∈ (((renderCalls passes N).1.getD f []).getD t defaultEvent).reads →
      (sv.1.type = TexSamplerKind.kTypePass → sv.1.index < t →
        sv.2 = Val.out f sv.1.index) ∧
      (sv.1.type = TexSamplerKind.kTypePrev →
        sv.2 = Val.ph ∨ ∃ fr, fr < f ∧ sv.2 = Val.out fr t)) := by
  rw [renderCalls_trace_getD passes N f hf]
  simp only [renderFrame]
  constructor
  · rw [runPasses_map_passIndex, List.range_eq_range']
  · intro t ht sv hm
    constructor
    · intro htp hlt
      exact runPasses_reads_pass passes f ((renderCalls passes f).2) 0 t []
        rfl ht sv hm htp (by omega)
    · intro htp
      have hr : ∀ u, u < passes.length →
          ((renderCalls passes f).2).getD (0 + u) (emptyRing 0) =
          ringAfter (fun fr => Val.out fr (0 + u))
            (capOf (passes.getD u defaultPass)) f := by
        intro u hu
        rw [Nat.zero_add]
        exact renderCalls_rings passes f u hu
      have hres := runPasses_reads_prev passes f [] ((renderCalls passes f).2)
        0 t hr ht sv hm htp
      rw [Nat.zero_add] at hres
      by_cases hkf : sv.1.index < f
      · right
        refine ⟨f - 1 - sv.1.index, by omega, ?_⟩
        rw [hres, if_pos hkf]
      · left
        rw [hres, if_neg hkf]

/-- Witness for C4: render call 1 of the opened demonstration preset
executes passes 0 and 1, in that order. -/
theorem c4_render_order_witness :
    ((renderCalls openedS.passes 2).1.getD 1 []).map DrawEvent.passIndex =
      List.range openedS.passes.length :=
  (c4_render_order openedS.passes 2 1 (by decide)).1

/-- C3: a pass referencing Prev(k) obtains, at render call N, exactly its
own output of render call N-1-k when N exceeds k, and the defined
placeholder texture at the render calls before that. -/
theorem c3_prev_reads_history (passes : List Pass) (N f t : Nat)
    (sv : TextureSampler × Val) (hf : f < N) (ht : t < passes.length)
    (hm : sv ∈ (((renderCalls passes N).1.getD f []).getD t defaultEvent).reads)
    (htp : sv.1.type = TexSamplerKind.kTypePrev) :
    sv.2 = if sv.1.index < f then Val.out (f - 1 - sv.1.index) t
           else Val.ph := by
  rw [renderCalls_trace_getD passes N f hf] at hm
  simp only [renderFrame] at hm
  have hr : ∀ u, u < passes.length →
      ((renderCalls passes f).2).getD (0 + u) (emptyRing 0) =
      ringAfter (fun fr => Val.out fr (0 + u))
        (capOf (passes.getD u defaultPass)) f := by
    intro u hu
    rw [Nat.zero_add]
    exact renderCalls_rings passes f u hu
  have hres := runPasses_reads_prev passes f [] ((renderCalls passes f).2)
    0 t hr ht sv hm htp
  rw [Nat.zero_add] at hres
  exact hres

/-- Witness for C3: at render call 1, the Prev(0) sampler of pass 0 of the
opened demonstration preset reads that pass's output of render call 0. -/
theorem c3_prev_reads_history_witness :
    ((TextureSampler.mk 1 TexSamplerKind.kTypePrev 0, Val.out 0 0) :
      TextureSampler × Val).2 =
      if ((TextureSampler.mk 1 TexSamplerKind.kTypePrev 0, Val.out 0 0) :
          TextureSampler × Val).1.index < 1 then
        Val.out (1 - 1 - ((TextureSampler.mk 1 TexSamplerKind.kTypePrev 0,
          Val.out 0 0) : TextureSampler × Val).1.index) 0
      else Val.ph :=
  c3_prev_reads_history openedS.passes 2 1 0
    (TextureSampler.mk 1 TexSamplerKind.kTypePrev 0, Val.out 0 0)
    (by decide) (by decide) (by decide) (by decide)

end LibRetro
